import Mathlib

/-!
Verification of the SMART_INVENTORY-AND_ORDERS-MANAGEMENT backend.

The development shallowly embeds the Python sources:
* `app/auth.py` — password hashing/verification, the static credential store,
  JWT issuance/validation and the role gate;
* `app/services/bus.py` — the order-event publisher (`str(dict)` payloads);
* `funcfolder/function_app.py` — the `confirm_order` Service Bus handler:
  payload decoding, the seven database/render/upload steps, and the invoice
  PDF layout.

Strings are modelled by Lean `String`/`List Char`; machine-level behaviour of
third-party libraries (passlib/bcrypt, python-jose, fpdf, SQLAlchemy, Azure
blob storage) is modelled by idealised pure functions whose doc comments state
exactly what is abstracted.  Monetary arithmetic (Python floats) is modelled
with exact rationals `ℚ`; all concrete amounts appearing in the claims are
exactly representable, so no rounding divergence arises.
-/

namespace SmartInventory

/-! ## UTF-8 and the bcrypt model (app/auth.py) -/

/-- Model of UTF-8 encoding of one character (Python `str.encode("utf-8")`),
byte values as `Nat`.  Matches the standard 1–4 byte encoding for every
Unicode scalar value. -/
def utf8EncodeCharNat (c : Char) : List Nat :=
  if c.toNat < 128 then [c.toNat]
  else if c.toNat < 2048 then [192 + c.toNat / 64, 128 + c.toNat % 64]
  else if c.toNat < 65536 then
    [224 + c.toNat / 4096, 128 + c.toNat / 64 % 64, 128 + c.toNat % 64]
  else
    [240 + c.toNat / 262144, 128 + c.toNat / 4096 % 64, 128 + c.toNat / 64 % 64,
     128 + c.toNat % 64]

/-- The UTF-8 bytes of a string (Python `s.encode("utf-8")`). -/
def utf8Bytes (s : String) : List Nat := s.data.flatMap utf8EncodeCharNat

/-- Model of Python string slicing `s[:n]`: the first `n` characters. -/
def sliceChars (s : String) (n : Nat) : String := String.mk (s.data.take n)

/-- The effective key material bcrypt derives from a password: its UTF-8
bytes silently truncated to 72 bytes.  Models the bcrypt backend used by
passlib's `CryptContext(schemes=["bcrypt"])`. -/
def bcryptTruncKey (password : String) : List Nat := (utf8Bytes password).take 72

/-- Idealised model of `pwd_context.hash`: a modular-crypt-format string whose
salt/digest part is abstracted by a collision-free serialisation of the
effective (72-byte-truncated) key material. -/
def pwd_context_hash (password : String) : String :=
  String.mk ('$' :: '2' :: 'b' :: '$' :: '1' :: '2' :: '$'
    :: (bcryptTruncKey password).map Char.ofNat)

/-- Model of passlib's hash identification: a hash string that does not carry
the `$2b$12$` prefix cannot be identified and `pwd_context.verify` raises. -/
def identifyHash (s : String) : Option (List Nat) :=
  match s.data with
  | '$' :: '2' :: 'b' :: '$' :: '1' :: '2' :: '$' :: rest =>
      some (rest.map Char.toNat)
  | _ => none

/-- Idealised model of `pwd_context.verify`: raises (`Except.error`) when the
hash cannot be identified, otherwise succeeds exactly when the candidate's
truncated key material matches the one recorded in the hash (bcrypt with the
stored salt is deterministic and modelled collision-free). -/
def pwd_context_verifyE (plain : String) (hashed : String) : Except String Bool :=
  match identifyHash hashed with
  | none => Except.error "hash could not be identified"
  | some key => Except.ok (bcryptTruncKey plain == key)

/-- `safe_hash_password` from `app/auth.py`: truncates to 72 characters
(`password[:72]`) and hashes.  The `except` fallback re-hashing `password[:50]`
is unreachable in the model because the modelled hash never raises. -/
def safe_hash_password (password : String) : String :=
  pwd_context_hash (sliceChars password 72)

/-- `verify_password` from `app/auth.py`: truncates the candidate to 72
characters, calls `pwd_context.verify`, and catches any exception, returning
`false` in that case. -/
def verify_password (plain_password : String) (hashed_password : String) : Bool :=
  match pwd_context_verifyE (sliceChars plain_password 72) hashed_password with
  | Except.ok b => b
  | Except.error _ => false

/-! ## Credential store (app/auth.py) -/

/-- One record of `fake_users_db`. -/
structure UserRec where
  username : String
  hashed_password : String
  role : String
  deriving DecidableEq

/-- `raw_users` from `app/auth.py`: username ↦ (plain password, role). -/
def raw_users : List (String × String × String) :=
  [("admin", "admin123", "admin"), ("warehouse", "warehouse123", "warehouse")]

/-- `fake_users_db` from `app/auth.py`: built once from `raw_users`, hashing
each password with `safe_hash_password`. -/
def fake_users_db : List (String × UserRec) :=
  raw_users.map (fun e => (e.1, ⟨e.1, safe_hash_password e.2.1, e.2.2⟩))

/-- `authenticate_user` from `app/auth.py`: unknown username returns `none`
(logged, not raised); a known username whose password does not verify also
returns `none`; otherwise the stored record is returned. -/
def authenticate_user (username : String) (password : String) : Option UserRec :=
  match fake_users_db.lookup username with
  | none => none
  | some user => if verify_password password user.hashed_password then some user else none

/-- Specification-side predicate: the pair matches the credential store
(username present and password verifies against the stored hash). -/
def credential_matches (username : String) (password : String) : Bool :=
  match fake_users_db.lookup username with
  | none => false
  | some user => verify_password password user.hashed_password

/-! ## Supporting lemmas for the bcrypt model -/

theorem utf8EncodeCharNat_length_pos (c : Char) : 0 < (utf8EncodeCharNat c).length := by
  unfold utf8EncodeCharNat
  split_ifs <;> simp

theorem char_toNat_lt_usize (c : Char) : c.toNat < 4294967296 := by
  have h := c.val.toBitVec.isLt
  simpa [Char.toNat, UInt32.toNat] using h

theorem utf8EncodeCharNat_lt (c : Char) : ∀ b ∈ utf8EncodeCharNat c, b < 55296 := by
  intro b hb
  have hc := char_toNat_lt_usize c
  have h64 : c.toNat / 64 ≤ c.toNat := Nat.div_le_self _ _
  have h4096 : c.toNat / 4096 ≤ c.toNat := Nat.div_le_self _ _
  have hdiv : c.toNat / 262144 < 16384 := by
    apply Nat.div_lt_of_lt_mul
    omega
  have hm64 : c.toNat % 64 < 64 := Nat.mod_lt _ (by omega)
  have hm64' : c.toNat / 64 % 64 < 64 := Nat.mod_lt _ (by omega)
  have hm64'' : c.toNat / 4096 % 64 < 64 := Nat.mod_lt _ (by omega)
  unfold utf8EncodeCharNat at hb
  split_ifs at hb with h1 h2 h3 <;> simp at hb <;> omega

theorem char_ofNat_toNat (n : Nat) (h : n.isValidChar) : (Char.ofNat n).toNat = n := by
  rw [Char.ofNat, dif_pos h]; rfl

theorem bcryptTruncKey_lt (p : String) : ∀ b ∈ bcryptTruncKey p, b < 55296 := by
  intro b hb
  have hb' : b ∈ utf8Bytes p := List.take_subset _ _ hb
  rcases List.mem_flatMap.mp hb' with ⟨c, _, hc⟩
  exact utf8EncodeCharNat_lt c b hc

theorem identifyHash_pwd_context_hash (p : String) :
    identifyHash (pwd_context_hash p) = some (bcryptTruncKey p) := by
  show identifyHash (String.mk _) = _
  unfold identifyHash
  simp only [List.map_map]
  congr 1
  have h : ∀ b ∈ bcryptTruncKey p, (Char.toNat ∘ Char.ofNat) b = id b := by
    intro b hb
    have hlt : b < 55296 := bcryptTruncKey_lt p b hb
    exact char_ofNat_toNat b (Or.inl hlt)
  rw [List.map_congr_left h, List.map_id]

theorem length_le_length_flatMap_utf8 (l : List Char) :
    l.length ≤ (l.flatMap utf8EncodeCharNat).length := by
  induction l with
  | nil => simp
  | cons c tl ih =>
    have := utf8EncodeCharNat_length_pos c
    simp only [List.flatMap_cons, List.length_append, List.length_cons]
    omega

theorem take_flatMap_utf8_take (l : List Char) (n : Nat) :
    ((l.take n).flatMap utf8EncodeCharNat).take n = (l.flatMap utf8EncodeCharNat).take n := by
  by_cases h : l.length ≤ n
  · rw [List.take_of_length_le h]
  · push_neg at h
    conv_rhs => rw [← List.take_append_drop n l]
    rw [List.flatMap_append, List.take_append_of_le_length]
    calc n = (l.take n).length := by rw [List.length_take]; omega
    _ ≤ _ := length_le_length_flatMap_utf8 _

theorem bcryptTruncKey_sliceChars (p : String) :
    bcryptTruncKey (sliceChars p 72) = (utf8Bytes p).take 72 := by
  unfold bcryptTruncKey sliceChars utf8Bytes
  exact take_flatMap_utf8_take p.data 72

/-! ## Claims C5, C9, C7 -/

/-- **C5.** Passwords are truncated to the 72-byte bcrypt limit before both
hashing and verification: any password sharing the same 72-byte (UTF-8) prefix
with the hashed password verifies successfully against its hash. -/
theorem C5_truncated_prefix_verifies (p p' : String)
    (h : (utf8Bytes p).take 72 = (utf8Bytes p').take 72) :
    verify_password p' (safe_hash_password p) = true := by
  unfold verify_password safe_hash_password
  rw [show pwd_context_hash (sliceChars p 72)
        = pwd_context_hash (sliceChars p 72) from rfl]
  unfold pwd_context_verifyE
  rw [identifyHash_pwd_context_hash]
  simp only [beq_iff_eq]
  rw [bcryptTruncKey_sliceChars, bcryptTruncKey_sliceChars, h]

/-- Witness for C5 at the spec's own example: hashing `"x"*100` and verifying
with `"x"*80` (same 72-byte prefix) succeeds. -/
theorem C5_truncated_prefix_verifies_witness :
    (utf8Bytes (String.mk (List.replicate 100 'x'))).take 72
        = (utf8Bytes (String.mk (List.replicate 80 'x'))).take 72
    ∧ verify_password (String.mk (List.replicate 80 'x'))
        (safe_hash_password (String.mk (List.replicate 100 'x'))) = true :=
  ⟨by decide, C5_truncated_prefix_verifies _ _ (by decide)⟩

/-- **C9.** `verify_password` is total and never propagates an exception: when
the underlying `pwd_context.verify` comparison raises (models the `except`
branch), it returns `false` rather than erroring. -/
theorem C9_verify_password_catches (plain hashed : String) (e : String)
    (h : pwd_context_verifyE (sliceChars plain 72) hashed = Except.error e) :
    verify_password plain hashed = false := by
  unfold verify_password
  rw [h]

/-- Witness for C9: a string that is not a modular-crypt-format hash makes the
underlying comparison raise, and `verify_password` returns `false` on it. -/
theorem C9_verify_password_catches_witness :
    pwd_context_verifyE (sliceChars "secret" 72) "not-a-bcrypt-hash"
        = Except.error "hash could not be identified"
    ∧ verify_password "secret" "not-a-bcrypt-hash" = false :=
  ⟨by rfl,
   C9_verify_password_catches "secret" "not-a-bcrypt-hash"
     "hash could not be identified" (by rfl)⟩

/-- **C7.** `authenticate_user` returns the stored credential (role included)
exactly when the username is in the credential store and the password verifies
against the stored hash; every other pair yields the same "no match" result
`none`, so unknown-username and wrong-password failures are indistinguishable
to the caller. -/
theorem C7_authenticate_iff_match (u p : String) :
    (credential_matches u p = true →
        ∃ c, authenticate_user u p = some c ∧ fake_users_db.lookup u = some c)
    ∧ (credential_matches u p = false → authenticate_user u p = none)
    ∧ (∀ u' p', credential_matches u p = false → credential_matches u' p' = false →
        authenticate_user u p = authenticate_user u' p') := by
  refine ⟨?_, ?_, ?_⟩
  · intro h
    cases hl : fake_users_db.lookup u with
    | none => simp [credential_matches, hl] at h
    | some user =>
      have hv : verify_password p user.hashed_password = true := by
        simpa [credential_matches, hl] using h
      refine ⟨user, ?_, rfl⟩
      simp [authenticate_user, hl, hv]
  · intro h
    cases hl : fake_users_db.lookup u with
    | none => simp [authenticate_user, hl]
    | some user =>
      have hv : verify_password p user.hashed_password = false := by
        simpa [credential_matches, hl] using h
      simp [authenticate_user, hl, hv]
  · intro u' p' h h'
    have e1 : authenticate_user u p = none := by
      cases hl : fake_users_db.lookup u with
      | none => simp [authenticate_user, hl]
      | some user =>
        have hv : verify_password p user.hashed_password = false := by
          simpa [credential_matches, hl] using h
        simp [authenticate_user, hl, hv]
    have e2 : authenticate_user u' p' = none := by
      cases hl : fake_users_db.lookup u' with
      | none => simp [authenticate_user, hl]
      | some user =>
        have hv : verify_password p' user.hashed_password = false := by
          simpa [credential_matches, hl] using h'
        simp [authenticate_user, hl, hv]
    rw [e1, e2]

/-- Witness for C7: the valid pair ("admin", "admin123") authenticates and is
found in the store; the unknown-username pair ("nobody", "pw") and the
wrong-password pair ("admin", "wrong") produce identical results. -/
theorem C7_authenticate_iff_match_witness :
    (∃ c, authenticate_user "admin" "admin123" = some c
        ∧ fake_users_db.lookup "admin" = some c)
    ∧ authenticate_user "nobody" "pw" = authenticate_user "admin" "wrong" :=
  ⟨(C7_authenticate_iff_match "admin" "admin123").1 (by decide),
   (C7_authenticate_iff_match "nobody" "pw").2.2 "admin" "wrong" (by decide) (by decide)⟩

/-! ## JWT token service and role gate (app/auth.py) -/

/-- `SECRET_KEY` from `app/auth.py`. -/
def SECRET_KEY : String := "smartinventorysupersecretkey"

/-- `ACCESS_TOKEN_EXPIRE_MINUTES` from `app/auth.py`. -/
def ACCESS_TOKEN_EXPIRE_MINUTES : Int := 60

/-- The decoded payload of an access token: the dict
`{"sub": …, "role": …, "exp": …}`.  `role` is `none` when the key is absent
(`payload.get("role")` returns Python `None`).  `exp` is a Unix timestamp in
seconds. -/
structure Claims where
  sub : String
  role : Option String
  exp : Int
  deriving DecidableEq

/-- A JWT on the wire: either a well-formed `header.payload.signature` triple
(payload and signature abstracted) or a malformed string. -/
inductive Jwt where
  | wellFormed (payload : Claims) (sig : String)
  | malformed (raw : String)
  deriving DecidableEq

/-- Idealised model of the HS256 MAC: the genuine signature of a payload under
a secret.  A token verifies only if its signature equals this value. -/
def hs256Sig (secret : String) (c : Claims) : String :=
  secret ++ "." ++ c.sub ++ "." ++ (match c.role with | some r => r | none => "") ++ "."
    ++ toString c.exp

/-- Model of `jose.jwt.encode(claims, secret, algorithm="HS256")`. -/
def jwt_encode (payload : Claims) (secret : String) : Jwt :=
  Jwt.wellFormed payload (hs256Sig secret payload)

/-- Model of `jose.jwt.decode(token, secret, algorithms=["HS256"])`: raises
`JWTError` (`Except.error`) on a malformed token, a signature that does not
verify, or an expiry in the past (`exp < now`, no leeway). -/
def jwt_decode (token : Jwt) (secret : String) (now : Int) : Except String Claims :=
  match token with
  | Jwt.malformed _ => Except.error "malformed token"
  | Jwt.wellFormed payload sig =>
      if sig ≠ hs256Sig secret payload then Except.error "signature verification failed"
      else if payload.exp < now then Except.error "token expired"
      else Except.ok payload

/-- `create_access_token` from `app/auth.py`: copies the data
`{"sub": subject, "role": role}`, adds `exp = utcnow + 60 minutes`, and signs
with `SECRET_KEY`.  `now` is the current Unix time in seconds. -/
def create_access_token (sub : String) (role : Option String) (now : Int) : Jwt :=
  jwt_encode ⟨sub, role, now + ACCESS_TOKEN_EXPIRE_MINUTES * 60⟩ SECRET_KEY

/-- `verify_token` from `app/auth.py`: decodes with `SECRET_KEY` and returns
the payload, mapping any `JWTError` to HTTP 401. -/
def verify_token (token : Jwt) (now : Int) : Except Nat Claims :=
  match jwt_decode token SECRET_KEY now with
  | Except.ok payload => Except.ok payload
  | Except.error _ => Except.error 401

/-- `require_role(*allowed_roles)` from `app/auth.py` applied to a decoded
payload: raises HTTP 403 when `payload.get("role")` is not in the allow-list
(Python `None` is never in a list of strings), otherwise returns the payload
unchanged. -/
def require_role (allowed_roles : List String) (payload : Claims) : Except Nat Claims :=
  let user_role := payload.role
  if (match user_role with | some r => allowed_roles.contains r | none => false) then
    Except.ok payload
  else Except.error 403

/-! ## Claims C6, C8 -/

/-- **C6.** A token issued by the token service carries an absolute expiry of
issuance time plus a fixed 60-minute TTL; validating it before the expiry
succeeds and returns the claims, and validating after the expiry, or with a
bad signature, or a malformed token, fails with the invalid-token error 401. -/
theorem C6_token_ttl_and_validation (sub : String) (role : Option String) (now t : Int) :
    (t < now + ACCESS_TOKEN_EXPIRE_MINUTES * 60 →
        verify_token (create_access_token sub role now) t
          = Except.ok ⟨sub, role, now + ACCESS_TOKEN_EXPIRE_MINUTES * 60⟩)
    ∧ (now + ACCESS_TOKEN_EXPIRE_MINUTES * 60 < t →
        verify_token (create_access_token sub role now) t = Except.error 401)
    ∧ (∀ raw, verify_token (Jwt.malformed raw) t = Except.error 401)
    ∧ (∀ c sig, sig ≠ hs256Sig SECRET_KEY c →
        verify_token (Jwt.wellFormed c sig) t = Except.error 401) := by
  refine ⟨?_, ?_, ?_, ?_⟩
  · intro h
    simp only [verify_token, create_access_token, jwt_encode, jwt_decode]
    rw [if_neg (by simp)]
    rw [if_neg (by simp only [not_lt]; omega)]
  · intro h
    simp only [verify_token, create_access_token, jwt_encode, jwt_decode]
    rw [if_neg (by simp)]
    rw [if_pos (by simpa using h)]
  · intro raw
    rfl
  · intro c sig h
    simp only [verify_token, jwt_decode]
    rw [if_pos h]

/-- Witness for C6: a token issued at time 0 for ("admin", role "admin")
validates at time 100 (one freshly issued token), and fails with 401 at time
4000 (past the 3600-second TTL). -/
theorem C6_token_ttl_and_validation_witness :
    verify_token (create_access_token "admin" (some "admin") 0) 100
        = Except.ok ⟨"admin", some "admin", 0 + ACCESS_TOKEN_EXPIRE_MINUTES * 60⟩
    ∧ verify_token (create_access_token "admin" (some "admin") 0) 4000
        = Except.error 401 :=
  ⟨(C6_token_ttl_and_validation "admin" (some "admin") 0 100).1 (by decide),
   (C6_token_ttl_and_validation "admin" (some "admin") 0 4000).2.1 (by decide)⟩

/-- **C8.** The role gate returns the claims unchanged when `claims.role` is in
the allow-list and fails with Forbidden (403) otherwise; in particular
`require_role ["admin"]` accepts role "admin" and rejects role "warehouse". -/
theorem C8_role_gate (allowed_roles : List String) (payload : Claims) :
    (∀ r, payload.role = some r → allowed_roles.contains r = true →
        require_role allowed_roles payload = Except.ok payload)
    ∧ ((match payload.role with
          | some r => allowed_roles.contains r
          | none => false) = false →
        require_role allowed_roles payload = Except.error 403)
    ∧ (payload.role = some "admin" → require_role ["admin"] payload = Except.ok payload)
    ∧ (payload.role = some "warehouse" →
        require_role ["admin"] payload = Except.error 403) := by
  refine ⟨?_, ?_, ?_, ?_⟩
  · intro r hr hmem
    unfold require_role
    rw [hr]
    simp only [hmem, if_true]
  · intro h
    unfold require_role
    simp only [h]
    rfl
  · intro hr
    unfold require_role
    rw [hr]
    rfl
  · intro hr
    unfold require_role
    rw [hr]
    rfl

/-- Witness for C8: a decoded admin payload passes `require_role ["admin"]`
unchanged; the same payload with role "warehouse" is rejected with 403. -/
theorem C8_role_gate_witness :
    require_role ["admin"] ⟨"admin", some "admin", 3600⟩
        = Except.ok ⟨"admin", some "admin", 3600⟩
    ∧ require_role ["admin"] ⟨"warehouse", some "warehouse", 3600⟩
        = Except.error 403 :=
  ⟨(C8_role_gate ["admin"] ⟨"admin", some "admin", 3600⟩).2.2.1 rfl,
   (C8_role_gate ["admin"] ⟨"warehouse", some "warehouse", 3600⟩).2.2.2 rfl⟩

/-! ## Event payloads: `str(dict)` publishing and `json.loads` parsing
(app/services/bus.py and step 1 of funcfolder/function_app.py)

Events are flat dictionaries with string keys and integer or string values,
which covers every payload this system publishes (`{"order_id": n}`-shaped
dicts).  Python `repr` escaping is modelled per character: backslashes and the
chosen quote are escaped, tab/newline/carriage-return get their named escapes,
and other non-printable characters below code point 256 get `\xhh` escapes —
which is what makes the published payload of such values unreadable by
`json.loads` (an invalid `\escape`).  Non-printable characters at code points
256 and above (rendered `\uXXXX`/`\UXXXXXXXX` by Python) are outside the
model; theorems quantifying over serialised payloads restrict to characters
below 256. -/

/-- A JSON/Python scalar value occurring in an order event. -/
inductive PyVal where
  | int (n : Int)
  | str (s : String)
  deriving DecidableEq

/-- Decimal digit characters of `n`, most significant first, computed with
explicit fuel so that the definition reduces in the kernel.  `natDigitsAux
(n+1) n` always has enough fuel. -/
def natDigitsAux : Nat → Nat → List Char
  | 0, _ => []
  | fuel + 1, n =>
      if n < 10 then [Char.ofNat (48 + n)]
      else natDigitsAux fuel (n / 10) ++ [Char.ofNat (48 + n % 10)]

/-- Decimal digit characters of a natural number, e.g. `25 ↦ ['2','5']`. -/
def natDecimalChars (n : Nat) : List Char := natDigitsAux (n + 1) n

/-- Model of Python `str(int)`: optional minus sign followed by the digits. -/
def intDecimalChars (n : Int) : List Char :=
  if n < 0 then '-' :: natDecimalChars n.natAbs else natDecimalChars n.natAbs

/-- Lowercase hexadecimal digit character for `n < 16`, as used in Python's
`\xhh` escapes. -/
def hexDigit (n : Nat) : Char :=
  if n < 10 then Char.ofNat (48 + n) else Char.ofNat (87 + n)

/-- Model of Python `str.isprintable` for one character, exact for code points
below 256: printable ASCII 32–126, and printable Latin-1 161–255 except
U+00AD (soft hyphen); U+007F–U+00A0 are not printable.  For code points 256
and above Python's classification is Unicode-table-driven and outside the
model (this predicate returns false there; see `pyCharEscape`). -/
def pyPrintable (c : Char) : Bool :=
  (32 ≤ c.toNat && c.toNat ≤ 126) || (161 ≤ c.toNat && c.toNat ≤ 255 && c.toNat != 173)

/-- Python `repr` rendering of one character relative to the chosen quote:
the backslash and the quote are escaped, tab/newline/carriage-return get
their named escapes, printable characters are verbatim, and other
non-printable characters below code point 256 get `\xhh` escapes.
Non-printable characters at 256 and above (which Python renders as
`\uXXXX`/`\UXXXXXXXX`) are outside the model and rendered verbatim here; no
theorem quantifies over payloads containing them. -/
def pyCharEscape (quote : Char) (c : Char) : List Char :=
  if c = '\\' then ['\\', '\\']
  else if c = quote then ['\\', quote]
  else if c = '\t' then ['\\', 't']
  else if c = '\n' then ['\\', 'n']
  else if c = '\r' then ['\\', 'r']
  else if pyPrintable c then [c]
  else if 256 ≤ c.toNat then [c]
  else ['\\', 'x', hexDigit (c.toNat / 16), hexDigit (c.toNat % 16)]

/-- Python `repr` escaping of a string body relative to the chosen quote. -/
def pyStrEscape (quote : Char) (s : List Char) : List Char :=
  s.flatMap (pyCharEscape quote)

/-- Python `repr` of a string: double quotes are used when the string contains
a single quote but no double quote, otherwise single quotes. -/
def pyStrReprChars (s : List Char) : List Char :=
  if '\'' ∈ s ∧ '"' ∉ s then '"' :: (pyStrEscape '"' s ++ ['"'])
  else '\'' :: (pyStrEscape '\'' s ++ ['\''])

/-- Python `repr` of a dict value. -/
def pyValRepr : PyVal → List Char
  | PyVal.int n => intDecimalChars n
  | PyVal.str s => pyStrReprChars s.data

/-- Python `repr` of one `key: value` dict entry. -/
def pyEntryRepr (kv : String × PyVal) : List Char :=
  pyStrReprChars kv.1.data ++ ':' :: ' ' :: pyValRepr kv.2

/-- `", ".join` of already-rendered pieces. -/
def joinCommaSpace : List (List Char) → List Char
  | [] => []
  | [x] => x
  | x :: xs => x ++ ',' :: ' ' :: joinCommaSpace xs

/-- Python `str(dict)` for a flat dict: `{` entries `}`. -/
def pyDictRepr (e : List (String × PyVal)) : List Char :=
  '{' :: (joinCommaSpace (e.map pyEntryRepr) ++ ['}'])

/-- `publish_order_event` from `app/services/bus.py`: the Service Bus message
body is `str(order_event)`, the Python repr of the event dict. -/
def publish_order_event (order_event : List (String × PyVal)) : String :=
  String.mk (pyDictRepr order_event)

/-- The character substitution of `body.replace("'", '"')`. -/
def quoteSwap (c : Char) : Char := if c = '\'' then '"' else c

/-- Step 1 of `confirm_order`: `body.replace("'", '"')` — every single quote
in the message body becomes a double quote before JSON parsing. -/
def replaceQuotes (s : String) : String :=
  String.mk (s.data.map quoteSwap)

/-- JSON whitespace (as accepted by `json.loads`). -/
def isJsonWs (c : Char) : Bool := c = ' ' || c = '\t' || c = '\n' || c = '\r'

/-- Drop leading JSON whitespace. -/
def skipWs : List Char → List Char
  | [] => []
  | c :: cs => if isJsonWs c then skipWs cs else c :: cs

/-- ASCII decimal digit test (the digits accepted in JSON numbers). -/
def isDigitChar (c : Char) : Bool := 48 ≤ c.toNat && c.toNat ≤ 57

/-- The single-character JSON escapes accepted by `json.loads` after a
backslash; any other escape character (such as the `x` of Python's `\xhh`)
raises an invalid-escape error (`none`).  `\uXXXX` escapes are not modelled:
the publisher model never emits them (they arise only from non-printable
characters at code points 256 and above, which are outside the model). -/
def jsonUnescape (c : Char) : Option Char :=
  if c = '"' then some '"'
  else if c = '\\' then some '\\'
  else if c = '/' then some '/'
  else if c = 'b' then some (Char.ofNat 8)
  else if c = 'f' then some (Char.ofNat 12)
  else if c = 'n' then some '\n'
  else if c = 'r' then some '\r'
  else if c = 't' then some '\t'
  else none

/-- Body of a JSON string up to the closing quote, decoding backslash
escapes as `json.loads` does and rejecting invalid ones.  Raw control
characters below 0x20 (which `json.loads` in strict mode rejects) are
accepted verbatim here; they never occur in a published payload, where
`repr` always escapes them. -/
def parseStringBody : List Char → Option (List Char × List Char)
  | [] => none
  | c :: rest =>
      if c = '"' then some ([], rest)
      else if c = '\\' then
        match rest with
        | [] => none
        | e :: rest2 =>
            match jsonUnescape e with
            | some d => (parseStringBody rest2).map (fun sr => (d :: sr.1, sr.2))
            | none => none
      else (parseStringBody rest).map (fun sr => (c :: sr.1, sr.2))

/-- Longest digit prefix and the remainder. -/
def parseDigits : List Char → List Char × List Char
  | [] => ([], [])
  | c :: cs =>
      if isDigitChar c then
        let r := parseDigits cs
        (c :: r.1, r.2)
      else ([], c :: cs)

/-- Numeric value of a digit string (most significant digit first). -/
def digitsToNat (l : List Char) : Nat :=
  l.foldl (fun a c => 10 * a + (c.toNat - 48)) 0

/-- One JSON scalar value: a string or an (optionally negative) integer. -/
def parseJsonValue (cs : List Char) : Option (PyVal × List Char) :=
  match cs with
  | [] => none
  | c :: rest =>
      if c = '"' then
        (parseStringBody rest).map (fun sr => (PyVal.str (String.mk sr.1), sr.2))
      else if c = '-' then
        match parseDigits rest with
        | ([], _) => none
        | (ds, r) => some (PyVal.int (-(digitsToNat ds : Int)), r)
      else
        match parseDigits (c :: rest) with
        | ([], _) => none
        | (ds, r) => some (PyVal.int (digitsToNat ds), r)

/-- The `"key": value` entries of a JSON object, after the opening `{`,
including the closing `}`.  `fuel` bounds the number of entries; the
top-level parser passes the length of the input, which always suffices. -/
def parseEntries : Nat → List Char → Option (List (String × PyVal) × List Char)
  | 0, _ => none
  | fuel + 1, cs =>
      match skipWs cs with
      | [] => none
      | c :: rest =>
          if c = '"' then
            match parseStringBody rest with
            | none => none
            | some (k, r1) =>
                match skipWs r1 with
                | [] => none
                | c2 :: r2 =>
                    if c2 = ':' then
                      match parseJsonValue (skipWs r2) with
                      | none => none
                      | some (v, r3) =>
                          match skipWs r3 with
                          | [] => none
                          | c3 :: r4 =>
                              if c3 = ',' then
                                (parseEntries fuel r4).map
                                  (fun er => ((String.mk k, v) :: er.1, er.2))
                              else if c3 = '}' then some ([(String.mk k, v)], r4)
                              else none
                    else none
          else none

/-- Model of `json.loads` restricted to one flat object of string/integer
values — the payload shape of order events.  Trailing non-whitespace input is
rejected, as `json.loads` does. -/
def json_loads (s : String) : Option (List (String × PyVal)) :=
  match skipWs s.data with
  | [] => none
  | c :: rest =>
      if c = '{' then
        match skipWs rest with
        | [] => none
        | c2 :: r2 =>
            if c2 = '}' then if (skipWs r2).isEmpty then some [] else none
            else
              match parseEntries (rest.length + 1) rest with
              | some (es, r) => if (skipWs r).isEmpty then some es else none
              | none => none
      else none

/-- Python dict indexing `event[key]` on a decoded JSON object: with duplicate
keys the last occurrence wins, absent key is a `KeyError` (`none`). -/
def dictGet (e : List (String × PyVal)) (k : String) : Option PyVal :=
  ((e.filter (fun kv => kv.1 == k)).getLast?).map (fun kv => kv.2)

/-! ## Relational state and the order-confirmation workflow
(funcfolder/function_app.py) -/

/-- A row of the `orders` table. -/
structure Order where
  order_id : Int
  warehouse_id : Int
  status : String
  invoice_blob : Option String
  deriving DecidableEq

/-- A row of the `order_items` table. -/
structure OrderItem where
  order_id : Int
  product_id : Int
  quantity : Nat
  price : ℚ
  deriving DecidableEq

/-- A row of the `invoice` table (`created_at` stamped with `NOW()`). -/
structure InvoiceRecord where
  order_id : Int
  created_at : Nat
  deriving DecidableEq

/-- One cell emitted by `pdf.cell(w, h, text, …)`.  The rendered PDF is
modelled as the sequence of its cells; colours, fonts and positioning do not
affect any claim and are abstracted away. -/
structure Cell where
  w : Nat
  h : Nat
  text : String
  deriving DecidableEq

/-- Database plus blob-storage state visible to the handler.  `blobs` maps a
blob key to the rendered document last uploaded under that key. -/
structure SysState where
  orders : List Order
  order_items : List OrderItem
  invoices : List InvoiceRecord
  blobs : List (String × List Cell)
  deriving DecidableEq

/-- Step 2: `UPDATE orders SET status=… WHERE order_id=:oid` — rewrites the
status of every row matching `oid`, with no condition on the prior status. -/
def updateStatus (oid : Int) (st : String) (orders : List Order) : List Order :=
  orders.map (fun o => if o.order_id == oid then { o with status := st } else o)

/-- Step 3a: `SELECT * FROM orders WHERE order_id=:oid … .first()`. -/
def fetchOrder (orders : List Order) (oid : Int) : Option Order :=
  (orders.filter (fun o => o.order_id == oid)).head?

/-- Step 3b: `SELECT … FROM order_items WHERE order_id=:oid`. -/
def fetchItems (items : List OrderItem) (oid : Int) : List OrderItem :=
  items.filter (fun i => i.order_id == oid)

/-- `total_amount = sum([float(i.quantity) * float(i.price) for i in items])`,
with Python floats modelled as exact rationals. -/
def computeTotal (items : List OrderItem) : ℚ :=
  (items.map (fun i => (i.quantity : ℚ) * i.price)).sum

/-- Step 7 (write-back): `UPDATE orders SET invoice_blob=:url WHERE
order_id=:oid`. -/
def updateInvoiceBlob (oid : Int) (url : String) (orders : List Order) : List Order :=
  orders.map (fun o => if o.order_id == oid then { o with invoice_blob := some url } else o)

/-- The deterministic blob key `invoice_order_{order_id}.pdf`. -/
def blob_name (order_id : Int) : String :=
  "invoice_order_" ++ String.mk (intDecimalChars order_id) ++ ".pdf"

/-- The storage URL of a blob: account endpoint + container `invoices` +
blob name, a pure function of the name. -/
def blob_url (name : String) : String :=
  "https://smartinventory.blob.core.windows.net/invoices/" ++ name

/-- `blob_client.upload_blob(stream, overwrite=True)`: replaces the content of
every existing object under the key, or creates the object. -/
def upload_blob (blobs : List (String × List Cell)) (key : String) (content : List Cell) :
    List (String × List Cell) :=
  if blobs.any (fun kv => kv.1 == key) then
    blobs.map (fun kv => if kv.1 == key then (key, content) else kv)
  else blobs ++ [(key, content)]

/-- `pad2` for money formatting: two-digit rendering of a cents remainder. -/
def pad2 (n : Nat) : String :=
  if n < 10 then "0" ++ String.mk (natDecimalChars n) else String.mk (natDecimalChars n)

/-- Model of Python `f"{q:.2f}"`: round to whole cents
(`⌊100·q + 1/2⌋`, computed as a floor division so it reduces in the kernel)
and print with exactly two decimals.  Exact for amounts that are whole cents;
the half-cent tie-break (Python rounds half-to-even) never arises in any
claim. -/
def fmtTwoDec (q : ℚ) : String :=
  let cents : Int := Int.fdiv (200 * q.num + q.den) (2 * q.den)
  if cents < 0 then
    "-" ++ String.mk (natDecimalChars (cents.natAbs / 100)) ++ "." ++ pad2 (cents.natAbs % 100)
  else String.mk (natDecimalChars (cents.natAbs / 100)) ++ "." ++ pad2 (cents.natAbs % 100)

/-- Model of Python `f"{n:04}"`: zero-pad to overall width 4. -/
def zeroPad4 (n : Int) : String :=
  if n < 0 then
    "-" ++ String.mk (List.replicate (3 - (natDecimalChars n.natAbs).length) '0')
      ++ String.mk (natDecimalChars n.natAbs)
  else
    String.mk (List.replicate (4 - (natDecimalChars n.natAbs).length) '0')
      ++ String.mk (natDecimalChars n.natAbs)

/-- The `InvoicePDF.header` cell (drawn when the page is added). -/
def headerCells : List Cell := [⟨0, 15, "Smart Inventory Solutions Pvt. Ltd."⟩]

/-- The `InvoicePDF.footer` cells (drawn when the document is produced). -/
def footerCells : List Cell :=
  [⟨0, 10, "Thank you for your business!"⟩, ⟨0, 10, "Contact: support@smartinventory.com"⟩]

/-- The four cells of one line-item row: product id, quantity, price, and
`line_total = float(qty) * float(price)`, money formatted to two decimals. -/
def itemRowCells (item : OrderItem) : List Cell :=
  [⟨50, 10, String.mk (intDecimalChars item.product_id)⟩,
   ⟨40, 10, String.mk (natDecimalChars item.quantity)⟩,
   ⟨50, 10, fmtTwoDec item.price⟩,
   ⟨50, 10, fmtTwoDec ((item.quantity : ℚ) * item.price)⟩]

/-- Step 5: the invoice PDF of `confirm_order`, cell by cell in emission
order: branded header, invoice number `INV-{order_id:04}`, generation
timestamp, metadata block, column headers, one row per item, the grand-total
row whose amount cell is `f"INR {total_amount:.2f}"`, and the footer. -/
def renderInvoice (order_id : Int) (warehouse_id : Int) (dateStr : String)
    (items : List OrderItem) (total : ℚ) : List Cell :=
  headerCells ++
  [⟨0, 10, "Invoice #: INV-" ++ zeroPad4 order_id⟩,
   ⟨0, 8, "Date: " ++ dateStr⟩,
   ⟨0, 10, "Invoice Details"⟩,
   ⟨100, 8, "Order ID: " ++ String.mk (intDecimalChars order_id)⟩,
   ⟨100, 8, "Warehouse ID: " ++ String.mk (intDecimalChars warehouse_id)⟩,
   ⟨100, 8, "Customer: Syed Saad"⟩,
   ⟨50, 10, "Product ID"⟩, ⟨40, 10, "Quantity"⟩, ⟨50, 10, "Price"⟩, ⟨50, 10, "Total"⟩] ++
  items.flatMap itemRowCells ++
  [⟨140, 10, "Grand Total"⟩, ⟨50, 10, "INR " ++ fmtTwoDec total⟩] ++
  footerCells

/-- Steps 2–7 of `confirm_order` for an already-extracted `order_id`.

Each database step runs in its own auto-committing `engine.begin()` unit of
work; no transaction spans the steps.  `failAt = some k` injects an exception
into step `k` (numbered as in the source: 2 status update, 3 fetch, 4 invoice
insert, 5 PDF render, 6 blob upload, 7 URL write-back), modelling an
infrastructure failure of that step's I/O call: the failing step's own
transaction commits nothing, every step already committed stays committed, and
the exception propagates (the handler logs and re-raises).  `failAt = none` is
the fault-free run.  A fetch that finds no order row raises in step 5, where
`order["warehouse_id"]` subscripts `None` — after the invoice insert of step
4, exactly as in the source. -/
def confirmSteps (order_id : Int) (now : Nat) (dateStr : String) (failAt : Option Nat)
    (s : SysState) : Option String × SysState :=
  if failAt == some 2 then (some "step 2 failed", s) else
  let s2 : SysState := { s with orders := updateStatus order_id "confirmed" s.orders }
  if failAt == some 3 then (some "step 3 failed", s2) else
  let order? := fetchOrder s2.orders order_id
  let items := fetchItems s2.order_items order_id
  let total := computeTotal items
  if failAt == some 4 then (some "step 4 failed", s2) else
  let s4 : SysState := { s2 with invoices := s2.invoices ++ [⟨order_id, now⟩] }
  if failAt == some 5 then (some "step 5 failed", s4) else
  match order? with
  | none => (some "order row not found (NoneType is not subscriptable)", s4)
  | some order =>
    let doc := renderInvoice order_id order.warehouse_id dateStr items total
    if failAt == some 6 then (some "step 6 failed", s4) else
    let key := blob_name order_id
    let s6 : SysState := { s4 with blobs := upload_blob s4.blobs key doc }
    let url := blob_url key
    if failAt == some 7 then (some "step 7 failed", s6) else
    let s7 : SysState := { s6 with orders := updateInvoiceBlob order_id url s6.orders }
    (none, s7)

/-- `confirm_order` from `funcfolder/function_app.py`: decode the message
body, replace single quotes with double quotes, `json.loads` it, take
`event["order_id"]`, then run steps 2–7.  The first component is the
re-raised error, if any; the second is the resulting committed state. -/
def confirm_order (body : String) (now : Nat) (dateStr : String) (failAt : Option Nat)
    (s : SysState) : Option String × SysState :=
  match json_loads (replaceQuotes body) with
  | none => (some "malformed event payload", s)
  | some event =>
      match dictGet event "order_id" with
      | some (PyVal.int order_id) => confirmSteps order_id now dateStr failAt s
      | _ => (some "order_id missing from event", s)

/-! ## Supporting lemmas for the workflow -/

theorem fetchOrder_map_preserving (f : Order → Order) (hf : ∀ o, (f o).order_id = o.order_id)
    (l : List Order) (oid : Int) : fetchOrder (l.map f) oid = (fetchOrder l oid).map f := by
  unfold fetchOrder
  rw [List.filter_map, List.head?_map]
  have he : l.filter ((fun o => o.order_id == oid) ∘ f) = l.filter (fun o => o.order_id == oid) :=
    List.filter_congr (fun o _ => by simp only [Function.comp_apply, hf o])
  rw [he]

theorem fetchOrder_pred (l : List Order) (oid : Int) (o : Order)
    (h : fetchOrder l oid = some o) : (o.order_id == oid) = true := by
  unfold fetchOrder at h
  have hmem : o ∈ l.filter (fun o => o.order_id == oid) := by
    cases hf : l.filter (fun o => o.order_id == oid) with
    | nil => rw [hf] at h; cases h
    | cons a t =>
      rw [hf] at h
      simp only [List.head?_cons, Option.some.injEq] at h
      subst h
      exact List.mem_cons_self a t
  exact (List.mem_filter.mp hmem).2

theorem fetchOrder_updateStatus_of_some (l : List Order) (oid : Int) (st : String) (o : Order)
    (h : fetchOrder l oid = some o) :
    fetchOrder (updateStatus oid st l) oid = some { o with status := st } := by
  unfold updateStatus
  rw [fetchOrder_map_preserving (fun o => if o.order_id == oid then { o with status := st } else o)
    (fun o => by dsimp only; split <;> rfl) l oid]
  rw [h]
  show some (if (o.order_id == oid) = true then { o with status := st } else o) = _
  rw [if_pos (fetchOrder_pred l oid o h)]

theorem fetchOrder_updateInvoiceBlob_of_some (l : List Order) (oid : Int) (url : String)
    (o : Order) (h : fetchOrder l oid = some o) :
    fetchOrder (updateInvoiceBlob oid url l) oid = some { o with invoice_blob := some url } := by
  unfold updateInvoiceBlob
  rw [fetchOrder_map_preserving
    (fun o => if o.order_id == oid then { o with invoice_blob := some url } else o)
    (fun o => by dsimp only; split <;> rfl) l oid]
  rw [h]
  show some (if (o.order_id == oid) = true then { o with invoice_blob := some url } else o) = _
  rw [if_pos (fetchOrder_pred l oid o h)]

theorem lookup_upload_blob_map (key : String) (content : List Cell) :
    ∀ blobs : List (String × List Cell), blobs.any (fun kv => kv.1 == key) = true →
      List.lookup key (blobs.map (fun kv => if kv.1 == key then (key, content) else kv))
        = some content := by
  intro blobs
  induction blobs with
  | nil => intro h; cases h
  | cons kv tl ih =>
    intro h
    obtain ⟨k, b⟩ := kv
    by_cases hk : (k == key) = true
    · have he : k = key := by simpa using hk
      simp [List.lookup_cons, he]
    · have hk' : k ≠ key := by simpa using hk
      have hkey : (key == k) = false := beq_false_of_ne (Ne.symm hk')
      have h' : tl.any (fun kv => kv.1 == key) = true := by
        simp only [List.any_cons, Bool.or_eq_true] at h
        rcases h with h | h
        · exact absurd h hk
        · exact h
      simp only [List.map_cons, hk, if_false, List.lookup_cons, hkey, Bool.false_eq_true]
      exact ih h'

theorem lookup_append_single (key : String) (content : List Cell) :
    ∀ blobs : List (String × List Cell), (∀ kv ∈ blobs, ¬ (kv.1 == key) = true) →
      List.lookup key (blobs ++ [(key, content)]) = some content := by
  intro blobs
  induction blobs with
  | nil => simp [List.lookup_cons]
  | cons kv tl ih =>
    intro hall
    have hk := hall kv (List.mem_cons_self kv tl)
    obtain ⟨k, b⟩ := kv
    have hk' : k ≠ key := by simpa using hk
    have hkey : (key == k) = false := beq_false_of_ne (Ne.symm hk')
    simp only [List.cons_append, List.lookup_cons, hkey]
    exact ih (fun kv h => hall kv (List.mem_cons_of_mem _ h))

theorem lookup_upload_blob (blobs : List (String × List Cell)) (key : String)
    (content : List Cell) :
    List.lookup key (upload_blob blobs key content) = some content := by
  unfold upload_blob
  by_cases hany : blobs.any (fun kv => kv.1 == key) = true
  · rw [if_pos hany]
    exact lookup_upload_blob_map key content blobs hany
  · rw [if_neg hany]
    refine lookup_append_single key content blobs ?_
    intro kv hkv hp
    exact hany (List.any_eq_true.mpr ⟨kv, hkv, hp⟩)

/-- Fault-free run of steps 2–7 when the order row exists: the closed form of
every committed effect. -/
theorem confirmSteps_success (s : SysState) (oid : Int) (now : Nat) (d : String) (o : Order)
    (h : fetchOrder s.orders oid = some o) :
    confirmSteps oid now d none s =
      (none,
       { orders := updateInvoiceBlob oid (blob_url (blob_name oid))
           (updateStatus oid "confirmed" s.orders),
         order_items := s.order_items,
         invoices := s.invoices ++ [⟨oid, now⟩],
         blobs := upload_blob s.blobs (blob_name oid)
           (renderInvoice oid o.warehouse_id d (fetchItems s.order_items oid)
             (computeTotal (fetchItems s.order_items oid))) }) := by
  have h2 : fetchOrder (updateStatus oid "confirmed" s.orders) oid
      = some { o with status := "confirmed" } :=
    fetchOrder_updateStatus_of_some s.orders oid "confirmed" o h
  unfold confirmSteps
  simp only [h2]
  rfl


theorem filter_upload_twice (key : String) (c1 c2 : List Cell) :
    ∀ blobs : List (String × List Cell), blobs.filter (fun kv => kv.1 == key) = [] →
      (upload_blob (upload_blob blobs key c1) key c2).filter (fun kv => kv.1 == key)
        = [(key, c2)] := by
  intro blobs h
  have hall : ∀ kv ∈ blobs, ¬ ((kv.1 == key) = true) := List.filter_eq_nil_iff.mp h
  have hany1 : ¬ (blobs.any (fun kv => kv.1 == key) = true) := by
    intro hq
    rcases List.any_eq_true.mp hq with ⟨kv, hkv, hp⟩
    exact hall kv hkv hp
  rw [show upload_blob blobs key c1 = blobs ++ [(key, c1)] from by
    unfold upload_blob; rw [if_neg hany1]]
  have hany2 : (blobs ++ [(key, c1)]).any (fun kv => kv.1 == key) = true :=
    List.any_eq_true.mpr ⟨(key, c1), List.mem_append_right _ (List.mem_singleton.mpr rfl),
      by simp⟩
  rw [show upload_blob (blobs ++ [(key, c1)]) key c2
      = blobs ++ [(key, c2)] from by
    unfold upload_blob
    rw [if_pos hany2, List.map_append]
    congr 1
    · have : ∀ kv ∈ blobs,
          (if kv.1 == key then (key, c2) else kv) = id kv := by
        intro kv hkv
        rw [if_neg (hall kv hkv)]
        rfl
      rw [List.map_congr_left this, List.map_id]
    · simp]
  rw [List.filter_append, h, List.nil_append]
  simp

/-! ## Claims C1–C4 -/

/-- **C1.** For every order event processed by the handler, the grand-total
cell of the uploaded invoice document reads `INR {total}` where the total is
exactly Σ quantity × unit price over the fetched order items; in particular
for items [(qty 2, price 10.00), (qty 1, price 5.00)] the total is 25.00 and
the grand-total cell shows the string "INR 25.00". -/
theorem C1_invoice_total_and_grand_cell :
    (∀ (s : SysState) (oid : Int) (now : Nat) (d : String) (o : Order),
      fetchOrder s.orders oid = some o →
      ∃ pre, List.lookup (blob_name oid) ((confirmSteps oid now d none s).2).blobs
        = some (pre ++ Cell.mk 140 10 "Grand Total" ::
            Cell.mk 50 10 ("INR " ++ fmtTwoDec (((fetchItems s.order_items oid).map
              (fun i => (i.quantity : ℚ) * i.price)).sum)) :: footerCells))
    ∧ computeTotal [⟨1, 1, 2, 10⟩, ⟨1, 2, 1, 5⟩] = 25
    ∧ (∃ pre, renderInvoice 1 3 "2025-01-01" [⟨1, 1, 2, 10⟩, ⟨1, 2, 1, 5⟩]
        (computeTotal [⟨1, 1, 2, 10⟩, ⟨1, 2, 1, 5⟩])
        = pre ++ Cell.mk 140 10 "Grand Total" :: Cell.mk 50 10 "INR 25.00" :: footerCells) := by
  refine ⟨?_, ?_, ?_⟩
  · intro s oid now d o h
    rw [confirmSteps_success s oid now d o h]
    dsimp only
    rw [lookup_upload_blob]
    refine ⟨headerCells ++
      [⟨0, 10, "Invoice #: INV-" ++ zeroPad4 oid⟩,
       ⟨0, 8, "Date: " ++ d⟩,
       ⟨0, 10, "Invoice Details"⟩,
       ⟨100, 8, "Order ID: " ++ String.mk (intDecimalChars oid)⟩,
       ⟨100, 8, "Warehouse ID: " ++ String.mk (intDecimalChars o.warehouse_id)⟩,
       ⟨100, 8, "Customer: Syed Saad"⟩,
       ⟨50, 10, "Product ID"⟩, ⟨40, 10, "Quantity"⟩, ⟨50, 10, "Price"⟩, ⟨50, 10, "Total"⟩] ++
      (fetchItems s.order_items oid).flatMap itemRowCells, ?_⟩
    unfold renderInvoice computeTotal
    simp [List.append_assoc]
  · show ((List.map (fun i => (i.quantity : ℚ) * i.price)
        ([⟨1, 1, 2, 10⟩, ⟨1, 2, 1, 5⟩] : List OrderItem))).sum = 25
    norm_num
  · have ht : computeTotal [(⟨1, 1, 2, 10⟩ : OrderItem), ⟨1, 2, 1, 5⟩] = 25 := by
      show ((List.map (fun i => (i.quantity : ℚ) * i.price)
          ([⟨1, 1, 2, 10⟩, ⟨1, 2, 1, 5⟩] : List OrderItem))).sum = 25
      norm_num
    rw [ht]
    refine ⟨headerCells ++
      [⟨0, 10, "Invoice #: INV-" ++ zeroPad4 1⟩,
       ⟨0, 8, "Date: " ++ "2025-01-01"⟩,
       ⟨0, 10, "Invoice Details"⟩,
       ⟨100, 8, "Order ID: " ++ String.mk (intDecimalChars 1)⟩,
       ⟨100, 8, "Warehouse ID: " ++ String.mk (intDecimalChars 3)⟩,
       ⟨100, 8, "Customer: Syed Saad"⟩,
       ⟨50, 10, "Product ID"⟩, ⟨40, 10, "Quantity"⟩, ⟨50, 10, "Price"⟩, ⟨50, 10, "Total"⟩] ++
      ([⟨1, 1, 2, 10⟩, ⟨1, 2, 1, 5⟩] : List OrderItem).flatMap itemRowCells, ?_⟩
    unfold renderInvoice
    rw [show ("INR " ++ fmtTwoDec 25 : String) = "INR 25.00" from by decide]
    simp [List.append_assoc]

/-- Witness for C1: running the handler for order 7 on a one-order database
stores a document whose grand-total row is as stated. -/
theorem C1_invoice_total_and_grand_cell_witness :
    fetchOrder [Order.mk 7 3 "placed" none] 7 = some (Order.mk 7 3 "placed" none)
    ∧ ∃ pre, List.lookup (blob_name 7)
        ((confirmSteps 7 0 "2025-01-01" none ⟨[Order.mk 7 3 "placed" none], [], [], []⟩).2).blobs
      = some (pre ++ Cell.mk 140 10 "Grand Total" ::
          Cell.mk 50 10 ("INR " ++ fmtTwoDec (((fetchItems
            (SysState.mk [Order.mk 7 3 "placed" none] [] [] []).order_items 7).map
              (fun i => (i.quantity : ℚ) * i.price)).sum)) :: footerCells) :=
  ⟨by decide,
   C1_invoice_total_and_grand_cell.1 ⟨[Order.mk 7 3 "placed" none], [], [], []⟩ 7 0 "2025-01-01"
     (Order.mk 7 3 "placed" none) (by decide)⟩

/-- **C2.** Processing the same order_id twice runs all steps both times: both
runs succeed, a second InvoiceRecord row is inserted (two rows total for that
order_id), the upload goes to the same deterministic blob key with overwrite —
one object remains, holding the latest rendering — and the Order row's
invoice_blob equals the URL of the most recent upload. -/
theorem C2_reprocessing_not_idempotent (s : SysState) (oid : Int) (now1 now2 : Nat)
    (d1 d2 : String) (o : Order)
    (ho : fetchOrder s.orders oid = some o)
    (hinv : s.invoices.filter (fun r => r.order_id == oid) = [])
    (hblob : s.blobs.filter (fun kv => kv.1 == blob_name oid) = []) :
    (confirmSteps oid now1 d1 none s).1 = none
    ∧ (confirmSteps oid now2 d2 none (confirmSteps oid now1 d1 none s).2).1 = none
    ∧ (((confirmSteps oid now2 d2 none (confirmSteps oid now1 d1 none s).2).2).invoices.filter
        (fun r => r.order_id == oid)).length = 2
    ∧ ((confirmSteps oid now2 d2 none (confirmSteps oid now1 d1 none s).2).2).blobs.filter
        (fun kv => kv.1 == blob_name oid)
      = [(blob_name oid, renderInvoice oid o.warehouse_id d2 (fetchItems s.order_items oid)
          (computeTotal (fetchItems s.order_items oid)))]
    ∧ ∃ o2, fetchOrder
          ((confirmSteps oid now2 d2 none (confirmSteps oid now1 d1 none s).2).2).orders oid
          = some o2
        ∧ o2.invoice_blob = some (blob_url (blob_name oid)) := by
  have e1 := confirmSteps_success s oid now1 d1 o ho
  have ho1 : fetchOrder ((confirmSteps oid now1 d1 none s).2).orders oid
      = some { o with status := "confirmed", invoice_blob := some (blob_url (blob_name oid)) } := by
    rw [e1]
    exact fetchOrder_updateInvoiceBlob_of_some _ oid _ _
      (fetchOrder_updateStatus_of_some s.orders oid _ o ho)
  have e2 := confirmSteps_success _ oid now2 d2 _ ho1
  refine ⟨by rw [e1], by rw [e2], ?_, ?_, ?_⟩
  · rw [e2, e1]
    dsimp only
    simp [List.filter_append, hinv]
  · rw [e2, e1]
    dsimp only
    exact filter_upload_twice (blob_name oid) _ _ s.blobs hblob
  · rw [e2]
    dsimp only
    exact ⟨_, fetchOrder_updateInvoiceBlob_of_some _ oid _ _
      (fetchOrder_updateStatus_of_some _ oid _ _ ho1), rfl⟩

/-- Witness for C2: reprocessing order 7 on a fresh one-order database. -/
theorem C2_reprocessing_not_idempotent_witness :
    (((confirmSteps 7 1 "d2" none
        (confirmSteps 7 0 "d1" none ⟨[Order.mk 7 3 "placed" none], [], [], []⟩).2).2).invoices.filter
      (fun r => r.order_id == 7)).length = 2
    ∧ ∃ o2, fetchOrder ((confirmSteps 7 1 "d2" none
          (confirmSteps 7 0 "d1" none ⟨[Order.mk 7 3 "placed" none], [], [], []⟩).2).2).orders 7
        = some o2 ∧ o2.invoice_blob = some (blob_url (blob_name 7)) :=
  ⟨(C2_reprocessing_not_idempotent ⟨[Order.mk 7 3 "placed" none], [], [], []⟩ 7 0 1 "d1" "d2"
      (Order.mk 7 3 "placed" none) (by decide) (by decide) (by decide)).2.2.1,
   (C2_reprocessing_not_idempotent ⟨[Order.mk 7 3 "placed" none], [], [], []⟩ 7 0 1 "d1" "d2"
      (Order.mk 7 3 "placed" none) (by decide) (by decide) (by decide)).2.2.2.2⟩

/-- **C3.** The handler's first database step sets Order.status to "confirmed"
keyed on order_id unconditionally: no precondition on the prior status is
checked (the theorem assumes nothing about `o.status`), and at row level every
row matching the order_id is overwritten whatever its current status. -/
theorem C3_status_overwritten_unconditionally (s : SysState) (oid : Int) (now : Nat)
    (d : String) (o : Order) (ho : fetchOrder s.orders oid = some o) :
    ((confirmSteps oid now d none s).1 = none
     ∧ ∃ o2, fetchOrder ((confirmSteps oid now d none s).2).orders oid = some o2
         ∧ o2.status = "confirmed" ∧ o2.order_id = o.order_id
         ∧ o2.warehouse_id = o.warehouse_id)
    ∧ ∀ (l : List Order) (ord : Order), ord ∈ l → ord.order_id = oid →
        { ord with status := "confirmed" } ∈ updateStatus oid "confirmed" l := by
  constructor
  · rw [confirmSteps_success s oid now d o ho]
    refine ⟨rfl, _, fetchOrder_updateInvoiceBlob_of_some _ oid _ _
      (fetchOrder_updateStatus_of_some s.orders oid _ o ho), rfl, rfl, rfl⟩
  · intro l ord hmem heq
    refine List.mem_map.mpr ⟨ord, hmem, ?_⟩
    rw [if_pos (beq_iff_eq.mpr heq)]

/-- Witness for C3 at a prior status that is not "placed": the run still
flips the status of order 7 from "cancelled" to "confirmed". -/
theorem C3_status_overwritten_unconditionally_witness :
    (confirmSteps 7 0 "d" none ⟨[Order.mk 7 3 "cancelled" none], [], [], []⟩).1 = none
    ∧ ∃ o2, fetchOrder
        ((confirmSteps 7 0 "d" none ⟨[Order.mk 7 3 "cancelled" none], [], [], []⟩).2).orders 7
        = some o2 ∧ o2.status = "confirmed" ∧ o2.order_id = (Order.mk 7 3 "cancelled" none).order_id
        ∧ o2.warehouse_id = (Order.mk 7 3 "cancelled" none).warehouse_id :=
  (C3_status_overwritten_unconditionally ⟨[Order.mk 7 3 "cancelled" none], [], [], []⟩ 7 0 "d"
    (Order.mk 7 3 "cancelled" none) (by decide)).1

/-- **C4.** Each step runs in its own auto-committing unit of work with no
spanning transaction: if any step after the status update raises (fetch,
invoice insert, render, upload, or URL write-back), the error propagates (the
invocation fails) while the Order row keeps status "confirmed" and its
invoice_blob stays unset — nothing is rolled back and no compensating write is
performed. -/
theorem C4_partial_failure_leaves_confirmed (s : SysState) (oid : Int) (now : Nat)
    (d : String) (o : Order) (k : Nat)
    (ho : fetchOrder s.orders oid = some o)
    (hb : o.invoice_blob = none)
    (hk : k = 3 ∨ k = 4 ∨ k = 5 ∨ k = 6 ∨ k = 7) :
    (∃ e, (confirmSteps oid now d (some k) s).1 = some e)
    ∧ ∃ o2, fetchOrder ((confirmSteps oid now d (some k) s).2).orders oid = some o2
        ∧ o2.status = "confirmed" ∧ o2.invoice_blob = none := by
  have h2 : fetchOrder (updateStatus oid "confirmed" s.orders) oid
      = some { o with status := "confirmed" } :=
    fetchOrder_updateStatus_of_some s.orders oid "confirmed" o ho
  have horders : ((confirmSteps oid now d (some k) s).1).isSome = true
      ∧ ((confirmSteps oid now d (some k) s).2).orders = updateStatus oid "confirmed" s.orders := by
    rcases hk with hk | hk | hk | hk | hk <;> subst hk
    · exact ⟨rfl, rfl⟩
    · exact ⟨rfl, rfl⟩
    · exact ⟨rfl, rfl⟩
    · rw [show confirmSteps oid now d (some 6) s
          = (some "step 6 failed",
             { s with orders := updateStatus oid "confirmed" s.orders,
                      invoices := s.invoices ++ [⟨oid, now⟩] }) from by
        unfold confirmSteps
        simp only [h2]
        rfl]
      exact ⟨rfl, rfl⟩
    · rw [show confirmSteps oid now d (some 7) s
          = (some "step 7 failed",
             { s with orders := updateStatus oid "confirmed" s.orders,
                      invoices := s.invoices ++ [⟨oid, now⟩],
                      blobs := upload_blob s.blobs (blob_name oid)
                        (renderInvoice oid o.warehouse_id d (fetchItems s.order_items oid)
                          (computeTotal (fetchItems s.order_items oid))) }) from by
        unfold confirmSteps
        simp only [h2]
        rfl]
      exact ⟨rfl, rfl⟩
  refine ⟨?_, ?_⟩
  · rcases hs : (confirmSteps oid now d (some k) s).1 with _ | e
    · rw [hs] at horders
      cases horders.1
    · exact ⟨e, rfl⟩
  · rw [horders.2]
    exact ⟨_, h2, rfl, hb⟩

/-- Witness for C4: a blob-upload failure (step 6) on order 7 leaves the order
confirmed with no invoice_blob, and the invocation fails. -/
theorem C4_partial_failure_leaves_confirmed_witness :
    (∃ e, (confirmSteps 7 0 "d" (some 6) ⟨[Order.mk 7 3 "placed" none], [], [], []⟩).1 = some e)
    ∧ ∃ o2, fetchOrder
        ((confirmSteps 7 0 "d" (some 6) ⟨[Order.mk 7 3 "placed" none], [], [], []⟩).2).orders 7
        = some o2 ∧ o2.status = "confirmed" ∧ o2.invoice_blob = none :=
  C4_partial_failure_leaves_confirmed ⟨[Order.mk 7 3 "placed" none], [], [], []⟩ 7 0 "d"
    (Order.mk 7 3 "placed" none) 6 (by decide) (by decide) (by decide)


/-! ## Claim C10: payload round-trip through quote replacement -/

/-- A character Python `repr` renders verbatim or with a JSON-compatible
named escape: not a quote, and either printable (per `pyPrintable`, hence
below code point 256) or one of tab, newline, carriage return.  Backslashes
are allowed: `repr` escapes them as `\\` and `json.loads` decodes that
back. -/
def plainChar (c : Char) : Prop :=
  c ≠ '\'' ∧ c ≠ '"' ∧ (pyPrintable c = true ∨ c = '\t' ∨ c = '\n' ∨ c = '\r')

instance plainChar_decidable (c : Char) : Decidable (plainChar c) := by
  unfold plainChar; infer_instance

/-- Event values whose published repr is readable back by `json.loads`:
integers, and strings of plain characters. -/
def goodVal : PyVal → Prop
  | PyVal.int _ => True
  | PyVal.str s => ∀ c ∈ s.data, plainChar c

instance goodVal_decidable (v : PyVal) : Decidable (goodVal v) :=
  match v with
  | PyVal.int _ => isTrue trivial
  | PyVal.str s => inferInstanceAs (Decidable (∀ c ∈ s.data, plainChar c))

/-- An event dictionary whose keys and string values contain no quote
characters and only plain characters: printable characters below code point
256, tab, newline, or carriage return (backslashes included).  Non-printable
characters that `repr` renders as `\xhh` are excluded — the round-trip
genuinely fails for them, see the C10 counterexample. -/
def goodEvent (e : List (String × PyVal)) : Prop :=
  ∀ kv ∈ e, (∀ c ∈ kv.1.data, plainChar c) ∧ goodVal kv.2

instance goodEvent_decidable (e : List (String × PyVal)) : Decidable (goodEvent e) := by
  unfold goodEvent
  infer_instance

/-- The JSON rendering of an event value (what quote replacement turns the
Python repr into): string bodies carry the repr escapes verbatim, with the
quotes swapped to double quotes. -/
def jsonValChars : PyVal → List Char
  | PyVal.int n => intDecimalChars n
  | PyVal.str s => '"' :: (pyStrEscape '\'' s.data ++ ['"'])

/-- The JSON rendering of one `"key": value` entry. -/
def jsonEntryChars (kv : String × PyVal) : List Char :=
  '"' :: (pyStrEscape '\'' kv.1.data ++ '"' :: ':' :: ' ' :: jsonValChars kv.2)

/-- The JSON rendering of the entry list, comma-separated. -/
def jsonEntriesChars (e : List (String × PyVal)) : List Char :=
  joinCommaSpace (e.map jsonEntryChars)

theorem pyStrReprChars_no_apos (s : List Char) (h : '\'' ∉ s) :
    pyStrReprChars s = '\'' :: (pyStrEscape '\'' s ++ ['\'']) := by
  unfold pyStrReprChars
  rw [if_neg (fun hc => h hc.1)]

theorem quoteSwap_eq_self (c : Char) (h : c ≠ '\'') : quoteSwap c = c := by
  unfold quoteSwap
  rw [if_neg h]

theorem hexDigit_bounds (n : Nat) (h : n < 16) :
    48 ≤ (hexDigit n).toNat ∧ (hexDigit n).toNat ≤ 102 := by
  unfold hexDigit
  split_ifs with h10
  · rw [char_ofNat_toNat (48 + n) (Or.inl (by omega))]
    omega
  · rw [char_ofNat_toNat (87 + n) (Or.inl (by omega))]
    omega

theorem mem_pyCharEscape_apos_ne_apos (c : Char) (hc : c ≠ '\'') :
    ∀ d ∈ pyCharEscape '\'' c, d ≠ '\'' := by
  intro d hd
  by_cases h1 : c = '\\'
  · subst h1
    rw [show pyCharEscape '\'' '\\' = ['\\', '\\'] from by decide] at hd
    simp only [List.mem_cons, List.not_mem_nil, or_false] at hd
    rcases hd with rfl | rfl <;> decide
  · by_cases h3 : c = '\t'
    · subst h3
      rw [show pyCharEscape '\'' '\t' = ['\\', 't'] from by decide] at hd
      simp only [List.mem_cons, List.not_mem_nil, or_false] at hd
      rcases hd with rfl | rfl <;> decide
    · by_cases h4 : c = '\n'
      · subst h4
        rw [show pyCharEscape '\'' '\n' = ['\\', 'n'] from by decide] at hd
        simp only [List.mem_cons, List.not_mem_nil, or_false] at hd
        rcases hd with rfl | rfl <;> decide
      · by_cases h5 : c = '\r'
        · subst h5
          rw [show pyCharEscape '\'' '\r' = ['\\', 'r'] from by decide] at hd
          simp only [List.mem_cons, List.not_mem_nil, or_false] at hd
          rcases hd with rfl | rfl <;> decide
        · by_cases h6 : pyPrintable c = true
          · have hesc : pyCharEscape '\'' c = [c] := by
              unfold pyCharEscape
              rw [if_neg h1, if_neg hc, if_neg h3, if_neg h4, if_neg h5, if_pos h6]
            rw [hesc] at hd
            simp only [List.mem_singleton] at hd
            subst hd
            exact hc
          · by_cases h7 : 256 ≤ c.toNat
            · have hesc : pyCharEscape '\'' c = [c] := by
                unfold pyCharEscape
                rw [if_neg h1, if_neg hc, if_neg h3, if_neg h4, if_neg h5, if_neg h6,
                  if_pos h7]
              rw [hesc] at hd
              simp only [List.mem_singleton] at hd
              subst hd
              exact hc
            · have hb : c.toNat < 256 := Nat.lt_of_not_le h7
              have hesc : pyCharEscape '\'' c
                  = ['\\', 'x', hexDigit (c.toNat / 16), hexDigit (c.toNat % 16)] := by
                unfold pyCharEscape
                rw [if_neg h1, if_neg hc, if_neg h3, if_neg h4, if_neg h5, if_neg h6,
                  if_neg h7]
              rw [hesc] at hd
              simp only [List.mem_cons, List.not_mem_nil, or_false] at hd
              rcases hd with rfl | rfl | rfl | rfl
              · decide
              · decide
              · have hbd := hexDigit_bounds (c.toNat / 16) (Nat.div_lt_of_lt_mul (by omega))
                intro he
                rw [he] at hbd
                revert hbd
                decide
              · have hbd := hexDigit_bounds (c.toNat % 16) (Nat.mod_lt _ (by omega))
                intro he
                rw [he] at hbd
                revert hbd
                decide

theorem map_quoteSwap_pyStrEscape (s : List Char) (h : '\'' ∉ s) :
    (pyStrEscape '\'' s).map quoteSwap = pyStrEscape '\'' s := by
  have hne : ∀ d ∈ pyStrEscape '\'' s, quoteSwap d = id d := by
    intro d hd
    rcases List.mem_flatMap.mp hd with ⟨c, hcm, hcd⟩
    exact quoteSwap_eq_self d
      (mem_pyCharEscape_apos_ne_apos c (fun he => h (he ▸ hcm)) d hcd)
  rw [List.map_congr_left hne, List.map_id]

theorem natDecimalChars_digit_aux :
    ∀ (fuel n : Nat), n < fuel → ∀ c ∈ natDigitsAux fuel n, 48 ≤ c.toNat ∧ c.toNat ≤ 57 := by
  intro fuel
  induction fuel with
  | zero => intro n h; omega
  | succ fuel ih =>
    intro n _ c hc
    unfold natDigitsAux at hc
    by_cases h10 : n < 10
    · rw [if_pos h10] at hc
      simp only [List.mem_singleton] at hc
      subst hc
      rw [char_ofNat_toNat (48 + n) (Or.inl (by omega))]
      omega
    · rw [if_neg h10] at hc
      rcases List.mem_append.mp hc with hc | hc
      · have hlt : n / 10 < fuel := by
          have := Nat.div_lt_self (by omega : 0 < n) (by omega : 1 < 10)
          omega
        exact ih (n / 10) hlt c hc
      · simp only [List.mem_singleton] at hc
        subst hc
        have hm : n % 10 < 10 := Nat.mod_lt _ (by omega)
        rw [char_ofNat_toNat (48 + n % 10) (Or.inl (by omega))]
        omega

theorem natDecimalChars_digit (n : Nat) :
    ∀ c ∈ natDecimalChars n, 48 ≤ c.toNat ∧ c.toNat ≤ 57 :=
  natDecimalChars_digit_aux (n + 1) n (Nat.lt_succ_self n)

theorem natDigitsAux_ne_nil (fuel n : Nat) (h : n < fuel) : natDigitsAux fuel n ≠ [] := by
  cases fuel with
  | zero => omega
  | succ fuel =>
    unfold natDigitsAux
    by_cases h10 : n < 10
    · rw [if_pos h10]; simp
    · rw [if_neg h10]; simp

theorem map_quoteSwap_intDecimalChars (n : Int) :
    (intDecimalChars n).map quoteSwap = intDecimalChars n := by
  unfold intDecimalChars
  have hnat : ∀ m : Nat, (natDecimalChars m).map quoteSwap = natDecimalChars m := by
    intro m
    have : ∀ c ∈ natDecimalChars m, quoteSwap c = id c := by
      intro c hc
      have hd := natDecimalChars_digit m c hc
      refine quoteSwap_eq_self c (fun he => ?_)
      subst he
      revert hd
      decide
    rw [List.map_congr_left this, List.map_id]
  split
  · simp only [List.map_cons, hnat]
    rw [quoteSwap_eq_self '-' (by decide)]
  · exact hnat _

theorem map_quoteSwap_entry (kv : String × PyVal)
    (hk : ∀ c ∈ kv.1.data, plainChar c) (hv : goodVal kv.2) :
    (pyEntryRepr kv).map quoteSwap = jsonEntryChars kv := by
  unfold pyEntryRepr jsonEntryChars
  have hkna : '\'' ∉ kv.1.data := fun hmem => (hk _ hmem).1 rfl
  rw [pyStrReprChars_no_apos kv.1.data hkna]
  cases hval : kv.2 with
  | int n =>
    simp only [pyValRepr, List.map_cons, List.map_append, jsonValChars]
    rw [map_quoteSwap_pyStrEscape kv.1.data hkna, map_quoteSwap_intDecimalChars]
    simp [quoteSwap]
  | str s =>
    have hs : ∀ c ∈ s.data, plainChar c := by
      rw [hval] at hv
      exact hv
    have hsna : '\'' ∉ s.data := fun hmem => (hs _ hmem).1 rfl
    simp only [pyValRepr, jsonValChars]
    rw [pyStrReprChars_no_apos s.data hsna]
    simp only [List.map_cons, List.map_append]
    rw [map_quoteSwap_pyStrEscape kv.1.data hkna, map_quoteSwap_pyStrEscape s.data hsna]
    simp [quoteSwap]

theorem map_quoteSwap_entries (e : List (String × PyVal)) (he : goodEvent e) :
    (joinCommaSpace (e.map pyEntryRepr)).map quoteSwap = jsonEntriesChars e := by
  unfold jsonEntriesChars
  induction e with
  | nil => rfl
  | cons kv rest ih =>
    have hkv := he kv (List.mem_cons_self kv rest)
    have hrest : goodEvent rest := fun kv h => he kv (List.mem_cons_of_mem _ h)
    cases rest with
    | nil =>
      simp only [List.map_cons, List.map_nil, joinCommaSpace]
      exact map_quoteSwap_entry kv hkv.1 hkv.2
    | cons kv2 rest2 =>
      simp only [List.map_cons, joinCommaSpace, List.map_append]
      rw [map_quoteSwap_entry kv hkv.1 hkv.2]
      simp only [List.map_cons] at ih
      rw [show quoteSwap ',' = ',' from rfl, show quoteSwap ' ' = ' ' from rfl, ih hrest]

theorem map_quoteSwap_pyDictRepr (e : List (String × PyVal)) (he : goodEvent e) :
    (pyDictRepr e).map quoteSwap = '{' :: (jsonEntriesChars e ++ ['}']) := by
  unfold pyDictRepr
  simp only [List.map_cons, List.map_append]
  rw [map_quoteSwap_entries e he]
  rfl


theorem skipWs_quote (cs : List Char) : skipWs ('"' :: cs) = '"' :: cs := rfl

theorem skipWs_lbrace (cs : List Char) : skipWs ('{' :: cs) = '{' :: cs := rfl

theorem skipWs_rbrace (cs : List Char) : skipWs ('}' :: cs) = '}' :: cs := rfl

theorem skipWs_colon (cs : List Char) : skipWs (':' :: cs) = ':' :: cs := rfl

theorem skipWs_comma (cs : List Char) : skipWs (',' :: cs) = ',' :: cs := rfl

theorem skipWs_space (cs : List Char) : skipWs (' ' :: cs) = skipWs cs := rfl

theorem parseEntries_space (fuel : Nat) (x : List Char) :
    parseEntries fuel (' ' :: x) = parseEntries fuel x := by
  cases fuel <;> rfl

theorem parseStringBody_quote (cs : List Char) : parseStringBody ('"' :: cs) = some ([], cs) := by
  unfold parseStringBody
  rw [if_pos rfl]

theorem parseStringBody_verbatim (c : Char) (cs : List Char) (h1 : c ≠ '"') (h2 : c ≠ '\\') :
    parseStringBody (c :: cs) = (parseStringBody cs).map (fun sr => (c :: sr.1, sr.2)) := by
  conv_lhs => unfold parseStringBody
  rw [if_neg h1, if_neg h2]

theorem parseStringBody_escape (e d : Char) (cs : List Char) (h : jsonUnescape e = some d) :
    parseStringBody ('\\' :: e :: cs)
      = (parseStringBody cs).map (fun sr => (d :: sr.1, sr.2)) := by
  conv_lhs => unfold parseStringBody
  rw [if_neg (by decide), if_pos rfl]
  show (match jsonUnescape e with
        | some d => (parseStringBody cs).map
            (fun sr : List Char × List Char => (d :: sr.1, sr.2))
        | none => none) = _
  rw [h]

theorem parseStringBody_escaped_round (s rest : List Char) (h : ∀ c ∈ s, plainChar c) :
    parseStringBody (pyStrEscape '\'' s ++ '"' :: rest) = some (s, rest) := by
  induction s with
  | nil => exact parseStringBody_quote rest
  | cons c tl ih =>
    have hc := h c (List.mem_cons_self c tl)
    have ihr := ih (fun c hm => h c (List.mem_cons_of_mem _ hm))
    rw [show pyStrEscape '\'' (c :: tl) = pyCharEscape '\'' c ++ pyStrEscape '\'' tl from rfl,
      List.append_assoc]
    by_cases h1 : c = '\\'
    · subst h1
      rw [show pyCharEscape '\'' '\\' = ['\\', '\\'] from by decide]
      simp only [List.cons_append, List.nil_append]
      rw [parseStringBody_escape '\\' '\\' _ (by decide), ihr]
      rfl
    · by_cases h3 : c = '\t'
      · subst h3
        rw [show pyCharEscape '\'' '\t' = ['\\', 't'] from by decide]
        simp only [List.cons_append, List.nil_append]
        rw [parseStringBody_escape 't' '\t' _ (by decide), ihr]
        rfl
      · by_cases h4 : c = '\n'
        · subst h4
          rw [show pyCharEscape '\'' '\n' = ['\\', 'n'] from by decide]
          simp only [List.cons_append, List.nil_append]
          rw [parseStringBody_escape 'n' '\n' _ (by decide), ihr]
          rfl
        · by_cases h5 : c = '\r'
          · subst h5
            rw [show pyCharEscape '\'' '\r' = ['\\', 'r'] from by decide]
            simp only [List.cons_append, List.nil_append]
            rw [parseStringBody_escape 'r' '\r' _ (by decide), ihr]
            rfl
          · have hverb : pyCharEscape '\'' c = [c] := by
              unfold pyCharEscape
              rw [if_neg h1, if_neg hc.1, if_neg h3, if_neg h4, if_neg h5]
              rcases hc.2.2 with hp | ht | hn | hr
              · rw [if_pos hp]
              · exact absurd ht h3
              · exact absurd hn h4
              · exact absurd hr h5
            rw [hverb]
            simp only [List.cons_append, List.nil_append]
            rw [parseStringBody_verbatim c _ hc.2.1 h1, ihr]
            rfl

theorem parseDigits_round (d rest : List Char) (hd : ∀ c ∈ d, isDigitChar c = true)
    (hr : ∀ c, rest.head? = some c → isDigitChar c = false) :
    parseDigits (d ++ rest) = (d, rest) := by
  induction d with
  | nil =>
    cases rest with
    | nil => rfl
    | cons r rs =>
      show parseDigits (r :: rs) = _
      unfold parseDigits
      rw [if_neg (by rw [hr r rfl]; exact Bool.false_ne_true)]
  | cons c tl ih =>
    show parseDigits (c :: (tl ++ rest)) = _
    unfold parseDigits
    rw [if_pos (hd c (List.mem_cons_self c tl)),
      ih (fun c hc => hd c (List.mem_cons_of_mem _ hc))]

theorem digitsToNat_append_digit (l : List Char) (c : Char) :
    digitsToNat (l ++ [c]) = 10 * digitsToNat l + (c.toNat - 48) := by
  unfold digitsToNat
  rw [List.foldl_append]
  rfl

theorem digitsToNat_natDigitsAux :
    ∀ fuel n, n < fuel → digitsToNat (natDigitsAux fuel n) = n := by
  intro fuel
  induction fuel with
  | zero => intro n h; omega
  | succ fuel ih =>
    intro n hn
    unfold natDigitsAux
    by_cases h10 : n < 10
    · rw [if_pos h10]
      show digitsToNat ([] ++ [Char.ofNat (48 + n)]) = n
      rw [digitsToNat_append_digit, char_ofNat_toNat (48 + n) (Or.inl (by omega))]
      simp [digitsToNat]
    · rw [if_neg h10]
      have hlt : n / 10 < fuel := by
        have := Nat.div_lt_self (by omega : 0 < n) (by omega : 1 < 10)
        omega
      rw [digitsToNat_append_digit, ih (n / 10) hlt,
        char_ofNat_toNat (48 + n % 10) (Or.inl (by omega))]
      omega

theorem digitsToNat_natDecimalChars (n : Nat) : digitsToNat (natDecimalChars n) = n :=
  digitsToNat_natDigitsAux (n + 1) n (Nat.lt_succ_self n)

theorem isDigitChar_of_bounds (c : Char) (h48 : 48 ≤ c.toNat) (h57 : c.toNat ≤ 57) :
    isDigitChar c = true := by
  unfold isDigitChar
  simp only [Bool.and_eq_true, decide_eq_true_eq]
  omega

theorem digit_ne_structural (c : Char) (h48 : 48 ≤ c.toNat) (h57 : c.toNat ≤ 57) :
    c ≠ '"' ∧ c ≠ '-' ∧ isJsonWs c = false := by
  refine ⟨fun he => by subst he; revert h48 h57; decide,
    fun he => by subst he; revert h48 h57; decide, ?_⟩
  unfold isJsonWs
  have h32 : c ≠ ' ' := fun he => by subst he; revert h48 h57; decide
  have h9 : c ≠ '\t' := fun he => by subst he; revert h48 h57; decide
  have h10 : c ≠ '\n' := fun he => by subst he; revert h48 h57; decide
  have h13 : c ≠ '\r' := fun he => by subst he; revert h48 h57; decide
  simp [h32, h9, h10, h13]

theorem natDecimalChars_cons (n : Nat) :
    ∃ c cs, natDecimalChars n = c :: cs ∧ 48 ≤ c.toNat ∧ c.toNat ≤ 57 := by
  cases hcs : natDecimalChars n with
  | nil => exact absurd hcs (natDigitsAux_ne_nil (n + 1) n (Nat.lt_succ_self n))
  | cons c cs =>
    have hd := natDecimalChars_digit n c (by rw [hcs]; exact List.mem_cons_self c cs)
    exact ⟨c, cs, rfl, hd.1, hd.2⟩

theorem parseJsonValue_round (v : PyVal) (rest : List Char) (hv : goodVal v)
    (hr : ∀ c, rest.head? = some c → isDigitChar c = false) :
    parseJsonValue (jsonValChars v ++ rest) = some (v, rest) := by
  cases v with
  | str s =>
    show parseJsonValue (('"' :: (pyStrEscape '\'' s.data ++ ['"'])) ++ rest) = _
    rw [show ('"' :: (pyStrEscape '\'' s.data ++ ['"'])) ++ rest
        = '"' :: (pyStrEscape '\'' s.data ++ '"' :: rest) by simp]
    simp only [parseJsonValue]
    rw [if_pos trivial]
    rw [parseStringBody_escaped_round s.data rest hv]
    rfl
  | int n =>
    show parseJsonValue (intDecimalChars n ++ rest) = _
    unfold intDecimalChars
    obtain ⟨c, cs, hcs, h48, h57⟩ := natDecimalChars_cons n.natAbs
    have hprops := digit_ne_structural c h48 h57
    by_cases hneg : n < 0
    · rw [if_pos hneg]
      show parseJsonValue ('-' :: (natDecimalChars n.natAbs ++ rest)) = _
      simp only [parseJsonValue]
      rw [if_pos trivial]
      rw [parseDigits_round (natDecimalChars n.natAbs) rest
        (fun c hc => by
          have := natDecimalChars_digit n.natAbs c hc
          exact isDigitChar_of_bounds c this.1 this.2) hr]
      rw [hcs]
      show some (PyVal.int (-(digitsToNat (c :: cs) : Int)), rest) = _
      rw [← hcs, digitsToNat_natDecimalChars]
      have : (-(n.natAbs : Int)) = n := by omega
      rw [this]
    · rw [if_neg hneg]
      rw [hcs, List.cons_append]
      simp only [parseJsonValue]
      rw [if_neg hprops.1, if_neg hprops.2.1]
      rw [← List.cons_append, ← hcs]
      rw [parseDigits_round (natDecimalChars n.natAbs) rest
        (fun c hc => by
          have := natDecimalChars_digit n.natAbs c hc
          exact isDigitChar_of_bounds c this.1 this.2) hr]
      rw [hcs]
      show some (PyVal.int (digitsToNat (c :: cs) : Int), rest) = _
      rw [← hcs, digitsToNat_natDecimalChars]
      have : ((n.natAbs : Int)) = n := by omega
      rw [this]

theorem skipWs_jsonValChars (v : PyVal) (rest : List Char) :
    skipWs (jsonValChars v ++ rest) = jsonValChars v ++ rest := by
  cases v with
  | str s => rfl
  | int n =>
    show skipWs (intDecimalChars n ++ rest) = intDecimalChars n ++ rest
    unfold intDecimalChars
    obtain ⟨c, cs, hcs, h48, h57⟩ := natDecimalChars_cons n.natAbs
    have hws := (digit_ne_structural c h48 h57).2.2
    by_cases hneg : n < 0
    · rw [if_pos hneg]
      rfl
    · rw [if_neg hneg, hcs, List.cons_append]
      unfold skipWs
      rw [if_neg (by rw [hws]; exact Bool.false_ne_true)]


theorem parseEntries_round :
    ∀ (e : List (String × PyVal)) (fuel : Nat) (tail : List Char),
      e ≠ [] → goodEvent e → e.length ≤ fuel →
      parseEntries fuel (jsonEntriesChars e ++ '}' :: tail) = some (e, tail) := by
  intro e
  induction e with
  | nil => intro fuel tail h; exact absurd rfl h
  | cons kv rest ih =>
    intro fuel tail _ he hlen
    cases fuel with
    | zero => simp at hlen
    | succ fuel =>
      have hkv := he kv (List.mem_cons_self kv rest)
      have hkey : ∀ c ∈ kv.1.data, plainChar c := hkv.1
      cases rest with
      | nil =>
        have hshape : jsonEntriesChars [kv] ++ '}' :: tail
            = '"' :: (pyStrEscape '\'' kv.1.data ++ '"' :: ':' :: ' ' ::
                (jsonValChars kv.2 ++ '}' :: tail)) := by
          show jsonEntryChars kv ++ '}' :: tail = _
          unfold jsonEntryChars
          simp
        rw [hshape]
        have hstr := parseStringBody_escaped_round kv.1.data
          (':' :: ' ' :: (jsonValChars kv.2 ++ '}' :: tail)) hkey
        have hval := parseJsonValue_round kv.2 ('}' :: tail) hkv.2
          (fun c hc => by
            simp only [List.head?_cons, Option.some.injEq] at hc
            subst hc
            decide)
        have hskipv := skipWs_jsonValChars kv.2 ('}' :: tail)
        simp only [parseEntries, skipWs_quote, hstr, skipWs_colon, skipWs_space, hskipv, hval,
          skipWs_rbrace]
        rfl
      | cons kv2 rest2 =>
        have hrest : goodEvent (kv2 :: rest2) := fun kv h => he kv (List.mem_cons_of_mem _ h)
        have hshape : jsonEntriesChars (kv :: kv2 :: rest2) ++ '}' :: tail
            = '"' :: (pyStrEscape '\'' kv.1.data ++ '"' :: ':' :: ' ' ::
                (jsonValChars kv.2 ++ ',' :: ' ' ::
                  (jsonEntriesChars (kv2 :: rest2) ++ '}' :: tail))) := by
          show (jsonEntryChars kv ++ ',' :: ' ' :: jsonEntriesChars (kv2 :: rest2))
              ++ '}' :: tail = _
          rw [show jsonEntryChars kv
              = '"' :: (pyStrEscape '\'' kv.1.data ++ '"' :: ':' :: ' ' :: jsonValChars kv.2)
              from rfl]
          simp [List.append_assoc]
        rw [hshape]
        have hstr := parseStringBody_escaped_round kv.1.data
          (':' :: ' ' :: (jsonValChars kv.2 ++ ',' :: ' ' ::
            (jsonEntriesChars (kv2 :: rest2) ++ '}' :: tail))) hkey
        have hval := parseJsonValue_round kv.2
          (',' :: ' ' :: (jsonEntriesChars (kv2 :: rest2) ++ '}' :: tail)) hkv.2
          (fun c hc => by
            simp only [List.head?_cons, Option.some.injEq] at hc
            subst hc
            decide)
        have hskipv := skipWs_jsonValChars kv.2
          (',' :: ' ' :: (jsonEntriesChars (kv2 :: rest2) ++ '}' :: tail))
        have hih := ih fuel tail (by simp) hrest (by simpa using Nat.le_of_succ_le_succ hlen)
        simp only [parseEntries, skipWs_quote, hstr, skipWs_colon, skipWs_space, hskipv, hval,
          skipWs_comma, parseEntries_space, hih]
        rfl

theorem length_le_length_jsonEntriesChars :
    ∀ e : List (String × PyVal), e ≠ [] → e.length ≤ (jsonEntriesChars e).length := by
  intro e
  induction e with
  | nil => intro h; exact absurd rfl h
  | cons kv rest ih =>
    intro _
    cases rest with
    | nil =>
      show 1 ≤ (jsonEntryChars kv).length
      unfold jsonEntryChars
      simp
    | cons kv2 rest2 =>
      have hih := ih (by simp)
      show (kv :: kv2 :: rest2).length ≤ (jsonEntriesChars (kv :: kv2 :: rest2)).length
      rw [show jsonEntriesChars (kv :: kv2 :: rest2)
          = jsonEntryChars kv ++ ',' :: ' ' :: jsonEntriesChars (kv2 :: rest2) from rfl]
      have h1 : 1 ≤ (jsonEntryChars kv).length := by
        rw [show jsonEntryChars kv
            = '"' :: (pyStrEscape '\'' kv.1.data ++ '"' :: ':' :: ' ' :: jsonValChars kv.2)
            from rfl]
        simp
      simp only [List.length_append, List.length_cons] at hih ⊢
      omega

theorem json_loads_round (e : List (String × PyVal)) (he : goodEvent e) :
    json_loads (String.mk ('{' :: (jsonEntriesChars e ++ ['}']))) = some e := by
  cases e with
  | nil => rfl
  | cons kv rest =>
    have hne : kv :: rest ≠ [] := by simp
    obtain ⟨Z, hZ⟩ : ∃ Z, jsonEntriesChars (kv :: rest) = '"' :: Z := by
      cases rest with
      | nil => exact ⟨_, rfl⟩
      | cons kv2 rest2 => exact ⟨_, rfl⟩
    have hZ' : jsonEntriesChars (kv :: rest) ++ ['}'] = '"' :: (Z ++ ['}']) := by
      rw [hZ]
      rfl
    have hlenE := length_le_length_jsonEntriesChars (kv :: rest) hne
    rw [hZ] at hlenE
    rw [show String.mk ('{' :: (jsonEntriesChars (kv :: rest) ++ ['}']))
        = String.mk ('{' :: ('"' :: (Z ++ ['}']))) from by rw [hZ']]
    simp only [json_loads, skipWs_lbrace, skipWs_quote]
    rw [if_pos trivial]
    rw [if_neg (by decide : ¬ ('"' : Char) = '}')]
    have hfu : (kv :: rest).length ≤ ('"' :: (Z ++ ['}'])).length + 1 := by
      simp only [List.length_cons, List.length_append] at hlenE ⊢
      omega
    have hround := parseEntries_round (kv :: rest) (('"' :: (Z ++ ['}'])).length + 1) []
      hne he hfu
    rw [hZ'] at hround
    rw [hround]
    rfl

theorem mem_joinCommaSpace (c : Char) :
    ∀ (L : List (List Char)) (x : List Char), x ∈ L → c ∈ x → c ∈ joinCommaSpace L := by
  intro L
  induction L with
  | nil => intro x hx; cases hx
  | cons y ys ih =>
    intro x hx hc
    cases ys with
    | nil =>
      rcases List.mem_cons.mp hx with h | h
      · subst h
        exact hc
      · cases h
    | cons y2 ys2 =>
      show c ∈ y ++ ',' :: ' ' :: joinCommaSpace (y2 :: ys2)
      rcases List.mem_cons.mp hx with h | h
      · subst h
        exact List.mem_append_left _ hc
      · refine List.mem_append_right _ ?_
        exact List.mem_cons_of_mem _ (List.mem_cons_of_mem _ (ih x h hc))

theorem apostrophe_mem_pyStrReprChars (s : List Char) (h : '\'' ∈ s) :
    '\'' ∈ pyStrReprChars s := by
  unfold pyStrReprChars
  split
  · refine List.mem_cons_of_mem _ (List.mem_append_left _ ?_)
    unfold pyStrEscape
    refine List.mem_flatMap_of_mem h ?_
    rw [show pyCharEscape '"' '\'' = ['\''] from by decide]
    simp
  · exact List.mem_cons_self _ _

theorem apostrophe_mem_pyDictRepr (e : List (String × PyVal)) (kv : String × PyVal)
    (s : String) (hkv : kv ∈ e) (hs : kv.2 = PyVal.str s) (hc : '\'' ∈ s.data) :
    '\'' ∈ pyDictRepr e := by
  unfold pyDictRepr
  refine List.mem_cons_of_mem _ (List.mem_append_left _ ?_)
  refine mem_joinCommaSpace '\'' (e.map pyEntryRepr) (pyEntryRepr kv)
    (List.mem_map_of_mem pyEntryRepr hkv) ?_
  unfold pyEntryRepr
  refine List.mem_append_right _ ?_
  refine List.mem_cons_of_mem _ (List.mem_cons_of_mem _ ?_)
  rw [show pyValRepr kv.2 = pyStrReprChars s.data from by rw [hs]; rfl]
  exact apostrophe_mem_pyStrReprChars s.data hc

theorem map_quoteSwap_ne_of_mem (l : List Char) (h : '\'' ∈ l) : l.map quoteSwap ≠ l := by
  induction l with
  | nil => cases h
  | cons c tl ih =>
    rcases List.mem_cons.mp h with hc | hc
    · subst hc
      intro he
      have := (List.cons.injEq _ _ _ _).mp he
      exact absurd this.1 (by decide)
    · intro he
      have := (List.cons.injEq _ _ _ _).mp he
      exact ih hc this.2

/-- The characters of a string value (empty for integer values), used to
state quote-freeness of an event's values as a decidable property. -/
def valStrChars : PyVal → List Char
  | PyVal.int _ => []
  | PyVal.str s => s.data

/-- **C10, counterexample to the claim as stated.**  The event
`{'order_id': 7, 'note': '\x7f'}` contains no quote character in any key or
value, yet its published payload does not decode back: Python `repr` renders
the non-printable DEL character as the escape `\x7f`, quote replacement
leaves it, and `json.loads` rejects the invalid `\escape`, so the handler
invocation fails instead of processing order 7. -/
theorem C10_quote_replacement_roundtrip_counterexample :
    (∀ kv ∈ ([("order_id", PyVal.int 7),
        ("note", PyVal.str (String.mk [Char.ofNat 127]))] : List (String × PyVal)),
      ∀ c ∈ kv.1.data ++ valStrChars kv.2, c ≠ '\'' ∧ c ≠ '"')
    ∧ dictGet [("order_id", PyVal.int 7), ("note", PyVal.str (String.mk [Char.ofNat 127]))]
        "order_id" = some (PyVal.int 7)
    ∧ json_loads (replaceQuotes (publish_order_event
        [("order_id", PyVal.int 7), ("note", PyVal.str (String.mk [Char.ofNat 127]))])) = none
    ∧ (confirm_order (publish_order_event
          [("order_id", PyVal.int 7), ("note", PyVal.str (String.mk [Char.ofNat 127]))])
        0 "d" none ⟨[Order.mk 7 3 "placed" none], [], [], []⟩).1
      = some "malformed event payload" := by
  refine ⟨by decide, by decide, by decide, by decide⟩

/-- **C10, amended.**  Before JSON-parsing, the handler replaces every single
quote in the body with a double quote.  Consequently (i) for every event
dictionary whose keys and string values contain no quote characters and only
plain characters — printable characters below code point 256, tab, newline,
or carriage return, backslashes included — the Python-repr payload published
by `publish_order_event` decodes back to exactly the same event — in
particular to the same order_id — and the handler behaves as if it had been
handed the order_id directly; and (ii) any payload containing an apostrophe
inside a string value is altered before parsing.  (Payloads with `\xhh`-escaped
non-printables fail to decode instead — see the counterexample.) -/
theorem C10_quote_replacement_roundtrip (e : List (String × PyVal)) :
    (goodEvent e → json_loads (replaceQuotes (publish_order_event e)) = some e)
    ∧ (goodEvent e → ∀ (oid : Int) (now : Nat) (d : String) (failAt : Option Nat) (s : SysState),
        dictGet e "order_id" = some (PyVal.int oid) →
        confirm_order (publish_order_event e) now d failAt s = confirmSteps oid now d failAt s)
    ∧ (∀ kv ∈ e, ∀ s, kv.2 = PyVal.str s → '\'' ∈ s.data →
        replaceQuotes (publish_order_event e) ≠ publish_order_event e) := by
  have hrt : goodEvent e → json_loads (replaceQuotes (publish_order_event e)) = some e := by
    intro he
    unfold replaceQuotes publish_order_event
    rw [show (String.mk (pyDictRepr e)).data = pyDictRepr e from rfl]
    rw [map_quoteSwap_pyDictRepr e he]
    exact json_loads_round e he
  refine ⟨hrt, ?_, ?_⟩
  · intro he oid now d failAt s hd
    simp only [confirm_order, hrt he, hd]
  · intro kv hkv s hs hc
    intro heq
    have hdata := congrArg String.data heq
    unfold replaceQuotes publish_order_event at hdata
    rw [show (String.mk (pyDictRepr e)).data = pyDictRepr e from rfl] at hdata
    rw [show (String.mk ((pyDictRepr e).map quoteSwap)).data
        = (pyDictRepr e).map quoteSwap from rfl] at hdata
    exact map_quoteSwap_ne_of_mem (pyDictRepr e)
      (apostrophe_mem_pyDictRepr e kv s hkv hs hc) hdata

/-- Witness for the amended C10: the payload
`{'order_id': 7, 'note': 'a\\b'}` — whose value contains a backslash, which
`repr` escapes as `\\` and `json.loads` decodes back — round-trips through
quote replacement to the same event, and the handler run on the published
body equals the direct run for order 7. -/
theorem C10_quote_replacement_roundtrip_witness :
    json_loads (replaceQuotes (publish_order_event
        [("order_id", PyVal.int 7), ("note", PyVal.str "a\\b")]))
      = some [("order_id", PyVal.int 7), ("note", PyVal.str "a\\b")]
    ∧ confirm_order (publish_order_event [("order_id", PyVal.int 7), ("note", PyVal.str "a\\b")])
        0 "d" none ⟨[Order.mk 7 3 "placed" none], [], [], []⟩
      = confirmSteps 7 0 "d" none ⟨[Order.mk 7 3 "placed" none], [], [], []⟩ :=
  ⟨(C10_quote_replacement_roundtrip [("order_id", PyVal.int 7), ("note", PyVal.str "a\\b")]).1
     (by decide),
   (C10_quote_replacement_roundtrip [("order_id", PyVal.int 7), ("note", PyVal.str "a\\b")]).2.1
     (by decide) 7 0 "d" none ⟨[Order.mk 7 3 "placed" none], [], [], []⟩ (by decide)⟩

end SmartInventory

